import Mathlib

/-!
Verification of the night-mode moderation bot (`bot.py`).

The bot keeps three SQLite tables:
* `chat_settings`  — per-chat configuration (window, enabled flag, active flag),
* `night_sessions` — the session ledger (one row per quiet-hours session),
* `saved_messages` — the message retention store (messages captured during a session).

A background thread (`background_time_check`) ticks once a minute; for each
enabled chat it compares the wall-clock time-of-day string with the chat's
configured start/end time and opens or closes a session.  Closing a session
(`end_night_mode`) purges the captured messages via the remote API and marks
the session completed.

This file shallowly embeds those operations over explicit list-valued states
and proves the claimed properties about them.
-/

namespace NightBot

/-! ### Decimal representation facts

Session identities in the source are the Python f-string `f"{chat_id}_{stamp}"`.
To reason about `INSERT OR REPLACE` on the session ledger we need that this
encoding is injective, which reduces to: the decimal rendering of an integer is
injective and contains no underscore. -/

/-- Numeric value of a list of decimal digit characters (most significant first). -/
def charsVal (l : List Char) : Nat :=
  l.foldl (fun a c => 10 * a + (c.toNat - 48)) 0

theorem charsVal_foldl (l : List Char) :
    ∀ a : Nat, l.foldl (fun a c => 10 * a + (c.toNat - 48)) a
      = a * 10 ^ l.length + charsVal l := by
  induction l with
  | nil => intro a; simp [charsVal]
  | cons c l ih =>
    intro a
    show l.foldl _ (10 * a + (c.toNat - 48)) = _
    rw [ih (10 * a + (c.toNat - 48))]
    have hc : charsVal (c :: l) = (c.toNat - 48) * 10 ^ l.length + charsVal l := by
      show l.foldl _ (10 * 0 + (c.toNat - 48)) = _
      rw [ih (10 * 0 + (c.toNat - 48))]
      ring_nf
    rw [hc]
    simp [List.length_cons, pow_succ]
    ring

theorem digitChar_val {k : Nat} (hk : k < 10) : (Nat.digitChar k).toNat - 48 = k := by
  interval_cases k <;> decide

theorem digitChar_isDigit {k : Nat} (hk : k < 10) : (Nat.digitChar k).isDigit = true := by
  interval_cases k <;> decide

theorem toDigitsCore_val :
    ∀ (fuel n : Nat) (ds : List Char), n < 10 ^ fuel →
      charsVal (Nat.toDigitsCore 10 fuel n ds) = n * 10 ^ ds.length + charsVal ds := by
  intro fuel
  induction fuel with
  | zero =>
    intro n ds hn
    have : n = 0 := by simpa using hn
    subst this
    simp [Nat.toDigitsCore]
  | succ fuel ih =>
    intro n ds hn
    show charsVal (if n / 10 = 0 then Nat.digitChar (n % 10) :: ds
      else Nat.toDigitsCore 10 fuel (n / 10) (Nat.digitChar (n % 10) :: ds)) = _
    have hmod : n % 10 < 10 := Nat.mod_lt _ (by norm_num)
    have hcons : charsVal (Nat.digitChar (n % 10) :: ds)
        = (n % 10) * 10 ^ ds.length + charsVal ds := by
      show ds.foldl _ (10 * 0 + ((Nat.digitChar (n % 10)).toNat - 48)) = _
      rw [charsVal_foldl, digitChar_val hmod]
      ring_nf
    by_cases h0 : n / 10 = 0
    · have hlt : n < 10 := by omega
      have hmn : n % 10 = n := Nat.mod_eq_of_lt hlt
      rw [if_pos h0, hcons, hmn]
    · rw [if_neg h0]
      have hdiv : n / 10 < 10 ^ fuel := by
        apply (Nat.div_lt_iff_lt_mul (by norm_num : 0 < 10)).mpr
        calc n < 10 ^ (fuel + 1) := hn
        _ = 10 ^ fuel * 10 := by rw [pow_succ]
      rw [ih (n / 10) (Nat.digitChar (n % 10) :: ds) hdiv, hcons]
      have hrec : (n / 10) * 10 ^ (Nat.digitChar (n % 10) :: ds).length
          = (n / 10) * 10 * 10 ^ ds.length := by
        simp [List.length_cons, pow_succ]; ring
      rw [hrec]
      have hnm := Nat.div_add_mod n 10
      have key : n * 10 ^ ds.length
          = n / 10 * 10 * 10 ^ ds.length + n % 10 * 10 ^ ds.length := by
        conv_lhs => rw [← hnm]
        ring
      rw [key]
      ring

theorem charsVal_toDigits (n : Nat) : charsVal (Nat.toDigits 10 n) = n := by
  have h1 : n < 10 ^ (n + 1) := by
    calc n < 10 ^ n := Nat.lt_pow_self (by norm_num) n
    _ ≤ 10 ^ (n + 1) := Nat.pow_le_pow_right (by norm_num) (Nat.le_succ n)
  have := toDigitsCore_val (n + 1) n [] h1
  simpa [Nat.toDigits, charsVal] using this

theorem natRepr_injective : Function.Injective Nat.repr := by
  intro n m h
  have hdata : (Nat.toDigits 10 n) = (Nat.toDigits 10 m) := by
    have := congrArg String.data h
    simpa [Nat.repr, List.asString] using this
  have := congrArg charsVal hdata
  rwa [charsVal_toDigits, charsVal_toDigits] at this

theorem toDigitsCore_mem :
    ∀ (fuel n : Nat) (ds : List Char) (c : Char),
      c ∈ Nat.toDigitsCore 10 fuel n ds → c ∈ ds ∨ c.isDigit = true := by
  intro fuel
  induction fuel with
  | zero => intro n ds c hc; exact Or.inl hc
  | succ fuel ih =>
    intro n ds c hc
    have hmod : n % 10 < 10 := Nat.mod_lt _ (by norm_num)
    by_cases h0 : n / 10 = 0
    · simp only [Nat.toDigitsCore, h0, if_true] at hc
      rcases List.mem_cons.mp hc with h | h
      · exact Or.inr (h ▸ digitChar_isDigit hmod)
      · exact Or.inl h
    · simp only [Nat.toDigitsCore, h0, if_neg h0] at hc
      rcases ih (n / 10) (Nat.digitChar (n % 10) :: ds) c hc with h | h
      · rcases List.mem_cons.mp h with h' | h'
        · exact Or.inr (h' ▸ digitChar_isDigit hmod)
        · exact Or.inl h'
      · exact Or.inr h

theorem natRepr_mem_isDigit {n : Nat} {c : Char} (hc : c ∈ (Nat.repr n).data) :
    c.isDigit = true := by
  have hmem : c ∈ Nat.toDigits 10 n := by
    simpa [Nat.repr, List.asString] using hc
  rcases toDigitsCore_mem (n + 1) n [] c hmem with h | h
  · simp at h
  · exact h

theorem intToString_no_underscore (i : Int) : '_' ∉ (toString i).data := by
  intro hmem
  cases i with
  | ofNat m =>
    have : ('_' : Char).isDigit = true := natRepr_mem_isDigit hmem
    simp at this
  | negSucc m =>
    have : ('_' : Char) ∈ ('-' :: (Nat.repr (m + 1)).data) := by
      simpa [toString, String.data_append] using hmem
    rcases List.mem_cons.mp this with h | h
    · simp at h
    · have : ('_' : Char).isDigit = true := natRepr_mem_isDigit h
      simp at this

theorem intToString_injective : Function.Injective (toString : Int → String) := by
  intro i j h
  cases i with
  | ofNat m =>
    cases j with
    | ofNat k =>
      have : Nat.repr m = Nat.repr k := h
      exact congrArg Int.ofNat (natRepr_injective this)
    | negSucc k =>
      exfalso
      have hd : (Nat.repr m).data = '-' :: (Nat.repr (k + 1)).data := by
        have := congrArg String.data h
        simpa [toString, String.data_append] using this
      have : ('-' : Char) ∈ (Nat.repr m).data := by rw [hd]; exact List.mem_cons_self _ _
      have : ('-' : Char).isDigit = true := natRepr_mem_isDigit this
      simp at this
  | negSucc m =>
    cases j with
    | ofNat k =>
      exfalso
      have hd : (Nat.repr k).data = '-' :: (Nat.repr (m + 1)).data := by
        have := congrArg String.data h.symm
        simpa [toString, String.data_append] using this
      have : ('-' : Char) ∈ (Nat.repr k).data := by rw [hd]; exact List.mem_cons_self _ _
      have : ('-' : Char).isDigit = true := natRepr_mem_isDigit this
      simp at this
    | negSucc k =>
      have hd : (Nat.repr (m + 1)).data = (Nat.repr (k + 1)).data := by
        have := congrArg String.data h
        simpa [toString, String.data_append] using this
      have : Nat.repr (m + 1) = Nat.repr (k + 1) :=
        congrArg List.asString hd
      have hmk := natRepr_injective this
      exact congrArg Int.negSucc (by omega)

theorem split_at_underscore :
    ∀ (l1 : List Char) (l2 r1 r2 : List Char),
      l1 ++ '_' :: r1 = l2 ++ '_' :: r2 → '_' ∉ l1 → '_' ∉ l2 →
      l1 = l2 ∧ r1 = r2 := by
  intro l1
  induction l1 with
  | nil =>
    intro l2 r1 r2 heq h1 h2
    cases l2 with
    | nil => simpa using heq
    | cons d l2 =>
      exfalso
      have : '_' = d := by simpa using congrArg (·.headD ' ') heq
      exact h2 (this ▸ List.mem_cons_self d l2)
  | cons c l1 ih =>
    intro l2 r1 r2 heq h1 h2
    cases l2 with
    | nil =>
      exfalso
      have : c = '_' := by simpa using congrArg (·.headD ' ') heq
      exact h1 (this ▸ List.mem_cons_self c l1)
    | cons d l2 =>
      have hcd : c = d := by simpa using congrArg (·.headD ' ') heq
      have htail : l1 ++ '_' :: r1 = l2 ++ '_' :: r2 := by
        simpa using congrArg List.tail heq
      have h1' : '_' ∉ l1 := fun hm => h1 (List.mem_cons_of_mem _ hm)
      have h2' : '_' ∉ l2 := fun hm => h2 (List.mem_cons_of_mem _ hm)
      rcases ih l2 r1 r2 htail h1' h2' with ⟨hl, hr⟩
      exact ⟨by rw [hcd, hl], hr⟩

/-- Session identity as built in `background_time_check`:
`session_id = f"{chat_id}_{datetime.now().strftime('%Y%m%d_%H%M')}"`. -/
def mkSessionId (chat_id : Int) (stamp : String) : String :=
  toString chat_id ++ "_" ++ stamp

theorem mkSessionId_injective {c d : Int} {s t : String}
    (h : mkSessionId c s = mkSessionId d t) : c = d ∧ s = t := by
  have hdata : (toString c).data ++ '_' :: s.data = (toString d).data ++ '_' :: t.data := by
    have := congrArg String.data h
    simpa [mkSessionId, String.data_append] using this
  rcases split_at_underscore _ _ _ _ hdata
      (intToString_no_underscore c) (intToString_no_underscore d) with ⟨h1, h2⟩
  constructor
  · exact intToString_injective (congrArg String.mk h1)
  · exact congrArg String.mk h2

/-! ### Data model

One structure per SQLite table row, one field per column.  `NULL`-able text
columns are modelled as `String` with `""` for `NULL` (no claim depends on
distinguishing the two). -/

/-- A row of `chat_settings`. -/
structure ChatConfig where
  chat_id : Int
  chat_title : String
  night_mode_enabled : Bool
  start_time : String
  end_time : String
  welcome_message : String
  is_active : Bool
  added_date : String
  last_notification_date : String
  is_night_mode_active : Bool
deriving DecidableEq

/-- A row of `night_sessions`.  `start_time` holds `datetime.now().isoformat()`
from the moment the session opened; `end_time` holds the scheduled close
time-of-day copied from the chat configuration. -/
structure Session where
  session_id : String
  chat_id : Int
  start_time : String
  end_time : String
  message_count : Nat
  is_completed : Bool
deriving DecidableEq

/-- A row of `saved_messages`.  `id` is the `AUTOINCREMENT` rowid. -/
structure SavedMessage where
  id : Nat
  chat_id : Int
  message_id : Int
  user_id : Int
  message_text : String
  message_type : String
  saved_date : String
  night_mode_session : String
deriving DecidableEq

/-- The durable store: the three tables plus the autoincrement counter for
`saved_messages`. -/
structure BotState where
  chat_settings : List ChatConfig
  night_sessions : List Session
  saved_messages : List SavedMessage
  next_message_rowid : Nat
deriving DecidableEq

/-- Aggregate counts of one purge run: how many remote deletions were
attempted, succeeded, and failed. -/
structure Report where
  attempted : Nat
  deleted : Nat
  failed : Nat
deriving DecidableEq

/-- One iteration of the background loop supplies the wall-clock readings used
by `background_time_check` plus the outcome of each remote `deleteMessage`
call (keyed by remote message id; `delete_message` returns a boolean and never
raises — its body catches all exceptions). -/
structure Tick where
  current_time : String
  current_date : String
  stamp : String
  iso : String
  deleteOk : Int → Bool

/-! ### Operations -/

/-- The non-completed ledger rows of one chat:
`SELECT ... FROM night_sessions WHERE chat_id = ? AND is_completed = 0`. -/
def openSessionsFor (st : BotState) (chat_id : Int) : List Session :=
  st.night_sessions.filter (fun s => s.chat_id == chat_id && !s.is_completed)

/-- `ORDER BY start_time DESC LIMIT 1` over a result list: the row with the
largest `start_time` (first such row on ties). -/
def latestOpen : List Session → Option Session
  | [] => none
  | s :: rest =>
    match latestOpen rest with
    | none => some s
    | some t => if s.start_time < t.start_time then some t else some s

/-- `get_current_session`: id of the chat's newest non-completed session. -/
def get_current_session (st : BotState) (chat_id : Int) : Option String :=
  (latestOpen (openSessionsFor st chat_id)).map (fun s => s.session_id)

/-- The retention-store query made by `end_night_mode`:
`SELECT ... FROM saved_messages WHERE chat_id = ? AND night_mode_session = ?`. -/
def sessionMessages (st : BotState) (chat_id : Int) (session_id : String) :
    List SavedMessage :=
  st.saved_messages.filter
    (fun m => m.chat_id == chat_id && m.night_mode_session == session_id)

/-- The ledger `UPDATE` of `end_night_mode`:
`UPDATE night_sessions SET is_completed = 1, message_count = ? WHERE session_id = ?`. -/
def closeSessionRow (sid : String) (k : Nat) (s : Session) : Session :=
  if s.session_id == sid then { s with is_completed := true, message_count := k } else s

/-- The configuration `UPDATE` of `end_night_mode`:
`UPDATE chat_settings SET is_night_mode_active = 0 WHERE chat_id = ?`. -/
def clearFlagRow (c : Int) (cc : ChatConfig) : ChatConfig :=
  if cc.chat_id == c then { cc with is_night_mode_active := false } else cc

/-- `end_night_mode(chat_id)`: look up the newest non-completed session; if one
exists, attempt a remote delete for every captured message of that session,
mark the session completed with the number of successful deletions, and clear
the chat's active flag.  If no non-completed session exists the function does
nothing.  The returned `Report` collects the delete-call counts of this
invocation (the source logs them and sends them as the summary message). -/
def end_night_mode (deleteOk : Int → Bool) (chat_id : Int) (st : BotState) :
    BotState × Report :=
  match latestOpen (openSessionsFor st chat_id) with
  | none => (st, ⟨0, 0, 0⟩)
  | some sess =>
    let messages := sessionMessages st chat_id sess.session_id
    let deleted_count := (messages.filter (fun m => deleteOk m.message_id)).length
    let night_sessions' :=
      st.night_sessions.map (closeSessionRow sess.session_id deleted_count)
    let chat_settings' := st.chat_settings.map (clearFlagRow chat_id)
    ({ st with night_sessions := night_sessions', chat_settings := chat_settings' },
     ⟨messages.length, deleted_count, messages.length - deleted_count⟩)

/-- The row inserted by `save_message`; the stored text is the Python slice
`message_text[:500]`, i.e. the first 500 characters. -/
def newSavedRow (st : BotState) (chat_id : Int) (message_id : Int) (user_id : Int)
    (message_text : String) (message_type : String) (saved_date : String)
    (session_id : String) : SavedMessage :=
  { id := st.next_message_rowid, chat_id := chat_id, message_id := message_id,
    user_id := user_id, message_text := String.mk (message_text.data.take 500),
    message_type := message_type, saved_date := saved_date,
    night_mode_session := session_id }

/-- `save_message`: append a row to `saved_messages`. -/
def save_message (st : BotState) (chat_id : Int) (message_id : Int) (user_id : Int)
    (message_text : String) (message_type : String) (saved_date : String)
    (session_id : String) : BotState :=
  { st with
    saved_messages := st.saved_messages ++
      [newSavedRow st chat_id message_id user_id message_text message_type
        saved_date session_id],
    next_message_rowid := st.next_message_rowid + 1 }

/-- The configuration `UPDATE` of the open transition:
`UPDATE chat_settings SET is_night_mode_active = 1, last_notification_date = ?
WHERE chat_id = ?`. -/
def setFlagRow (c : Int) (date : String) (cc : ChatConfig) : ChatConfig :=
  if cc.chat_id == c
  then { cc with is_night_mode_active := true, last_notification_date := date }
  else cc

/-- The fresh ledger row inserted by the open transition (message count and
completion flag take their column defaults `0`). -/
def newSessionRow (now : Tick) (cc : ChatConfig) : Session :=
  { session_id := mkSessionId cc.chat_id now.stamp, chat_id := cc.chat_id,
    start_time := now.iso, end_time := cc.end_time, message_count := 0,
    is_completed := false }

/-- The open transition of `background_time_check`: build the session id from
the chat id and the minute timestamp, `INSERT OR REPLACE` the new ledger row,
and set the chat's active flag together with `last_notification_date`. -/
def openNightMode (now : Tick) (st : BotState) (cc : ChatConfig) : BotState :=
  let session_id := mkSessionId cc.chat_id now.stamp
  { st with
    night_sessions :=
      st.night_sessions.filter (fun s => !(s.session_id == session_id))
        ++ [newSessionRow now cc],
    chat_settings := st.chat_settings.map (setFlagRow cc.chat_id now.current_date) }

/-- The per-chat body of the tick loop, using the row `cc` fetched at the start
of the tick: open when the clock matches the start time and the fetched active
flag is clear, close when it matches the end time and the flag is set. -/
def processChat (now : Tick) (st : BotState) (cc : ChatConfig) : BotState :=
  if now.current_time == cc.start_time && !cc.is_night_mode_active then
    openNightMode now st cc
  else if now.current_time == cc.end_time && cc.is_night_mode_active then
    (end_night_mode now.deleteOk cc.chat_id st).1
  else st

/-- The rows fetched at the start of a tick:
`SELECT ... FROM chat_settings WHERE night_mode_enabled = 1 AND is_active = 1`. -/
def enabledChats (st : BotState) : List ChatConfig :=
  st.chat_settings.filter (fun c => c.night_mode_enabled && c.is_active)

/-- One iteration of `background_time_check`: process every fetched chat row. -/
def background_tick (now : Tick) (st : BotState) : BotState :=
  (enabledChats st).foldl (processChat now) st

/-! ### Configuration writes (`handle_private_message` / DB helpers) -/

/-- `is_valid_time`: `datetime.strptime(time_str, "%H:%M")` succeeds.  `%H`
consumes one or two digits and requires a value below 24, `%M` likewise below
60, and the whole string must be consumed. -/
def digitVal? (c : Char) : Option Nat :=
  if c.isDigit then some (c.toNat - 48) else none

/-- Greedily consume one or two leading digits. -/
def parse2Digits : List Char → Option (Nat × List Char)
  | [] => none
  | c :: rest =>
    match digitVal? c with
    | none => none
    | some d1 =>
      match rest with
      | c2 :: rest2 =>
        match digitVal? c2 with
        | some d2 => some (10 * d1 + d2, rest2)
        | none => some (d1, rest)
      | [] => some (d1, [])

def is_valid_time (time_str : String) : Bool :=
  match parse2Digits time_str.data with
  | some (h, ':' :: rest) =>
    if h < 24 then
      match parse2Digits rest with
      | some (m, []) => decide (m < 60)
      | _ => false
    else false
  | _ => false

/-- `update_start_time`: unconditional single-column update. -/
def update_start_time (st : BotState) (chat_id : Int) (start_time : String) : BotState :=
  { st with chat_settings := st.chat_settings.map (fun cc =>
      if cc.chat_id == chat_id then { cc with start_time := start_time } else cc) }

/-- `update_end_time`: unconditional single-column update. -/
def update_end_time (st : BotState) (chat_id : Int) (end_time : String) : BotState :=
  { st with chat_settings := st.chat_settings.map (fun cc =>
      if cc.chat_id == chat_id then { cc with end_time := end_time } else cc) }

def enable_night_mode (st : BotState) (chat_id : Int) : BotState :=
  { st with chat_settings := st.chat_settings.map (fun cc =>
      if cc.chat_id == chat_id then { cc with night_mode_enabled := true } else cc) }

def disable_night_mode (st : BotState) (chat_id : Int) : BotState :=
  { st with chat_settings := st.chat_settings.map (fun cc =>
      if cc.chat_id == chat_id then { cc with night_mode_enabled := false } else cc) }

def update_welcome_message (st : BotState) (chat_id : Int) (message : String) : BotState :=
  { st with chat_settings := st.chat_settings.map (fun cc =>
      if cc.chat_id == chat_id then { cc with welcome_message := message } else cc) }

/-- The `waiting_time_start` flow of `handle_private_message`: the entered text
is checked with `is_valid_time` only; a valid time is stored via
`update_start_time`, an invalid one leaves the store unchanged (the user is
re-prompted). -/
def submit_start_time (st : BotState) (chat_id : Int) (time_str : String) : BotState :=
  if is_valid_time time_str then update_start_time st chat_id time_str else st

/-- Likewise for the `waiting_time_end` flow. -/
def submit_end_time (st : BotState) (chat_id : Int) (time_str : String) : BotState :=
  if is_valid_time time_str then update_end_time st chat_id time_str else st

/-- The row written by the `waiting_chat_id` flow:
`INSERT OR REPLACE INTO chat_settings (chat_id, is_active, added_date)
VALUES (?, 1, ?)` — every other column takes its declared default. -/
def defaultChatRow (chat_id : Int) (added_date : String) : ChatConfig :=
  { chat_id := chat_id, chat_title := "", night_mode_enabled := false,
    start_time := "23:00", end_time := "05:00",
    welcome_message := "🌙 Ночной режим активирован! Сообщения будут удаляться в конце периода.",
    is_active := true, added_date := added_date,
    last_notification_date := "", is_night_mode_active := false }

def add_chat (st : BotState) (chat_id : Int) (added_date : String) : BotState :=
  { st with chat_settings :=
      st.chat_settings.filter (fun c => !(c.chat_id == chat_id)) ++
        [defaultChatRow chat_id added_date] }

/-! ### The tick with store exceptions

`background_time_check` wraps the whole per-tick `for` loop in one
`try/except`.  `send_message`, `delete_message` and `end_night_mode` each catch
their own exceptions, so the only statements whose exceptions escape the loop
body are the store calls of the open transition (the ledger `INSERT` being the
first of them).  This variant lets that `INSERT` raise for chosen chats. -/

structure TickE extends Tick where
  insert_session_fails : Int → Bool

def processChatE (now : TickE) (st : BotState) (cc : ChatConfig) :
    Except BotState BotState :=
  if now.current_time == cc.start_time && !cc.is_night_mode_active then
    if now.insert_session_fails cc.chat_id then Except.error st
    else Except.ok (openNightMode now.toTick st cc)
  else if now.current_time == cc.end_time && cc.is_night_mode_active then
    Except.ok (end_night_mode now.deleteOk cc.chat_id st).1
  else Except.ok st

/-- Run the fetched chat rows in order; an escaped exception lands in the
outer `except`, which logs and sleeps — the remaining rows of this tick are
never processed. -/
def runChatsE (now : TickE) : List ChatConfig → BotState → BotState
  | [], st => st
  | cc :: rest, st =>
    match processChatE now st cc with
    | Except.ok st' => runChatsE now rest st'
    | Except.error stErr => stErr

def background_tickE (now : TickE) (st : BotState) : BotState :=
  runChatsE now (enabledChats st) st

/-! ### Basic frame lemmas -/

theorem end_night_mode_saved (del : Int → Bool) (c : Int) (st : BotState) :
    (end_night_mode del c st).1.saved_messages = st.saved_messages := by
  unfold end_night_mode
  cases hl : latestOpen (openSessionsFor st c) <;> simp [hl]

theorem processChat_saved (now : Tick) (st : BotState) (cc : ChatConfig) :
    (processChat now st cc).saved_messages = st.saved_messages := by
  unfold processChat
  split
  · rfl
  · split
    · exact end_night_mode_saved now.deleteOk cc.chat_id st
    · rfl

theorem foldl_processChat_saved (now : Tick) :
    ∀ (l : List ChatConfig) (st : BotState),
      (l.foldl (processChat now) st).saved_messages = st.saved_messages := by
  intro l
  induction l with
  | nil => intro st; rfl
  | cons cc rest ih =>
    intro st
    show ((rest.foldl (processChat now) (processChat now st cc)).saved_messages = _)
    rw [ih (processChat now st cc), processChat_saved]

/-! ### Test fixtures -/

/-- A chat row with the given id, window, enabled and active flags. -/
def mkChat (c : Int) (enabled : Bool) (s e : String) (active : Bool) : ChatConfig :=
  { chat_id := c, chat_title := "", night_mode_enabled := enabled,
    start_time := s, end_time := e, welcome_message := "", is_active := true,
    added_date := "", last_notification_date := "", is_night_mode_active := active }

/-- A tick at the given wall-clock time-of-day on 2026-10-12, with every remote
delete succeeding. -/
def mkTick (t : String) : Tick :=
  { current_time := t, current_date := "2026-10-12",
    stamp := "20261012_" ++ t, iso := "2026-10-12T" ++ t,
    deleteOk := fun _ => true }

/-! ## Claims -/

/-- **C9.** `save_message` stores `message_text[:500]`: the appended
retention-store row's `message_text` has length at most 500, whatever the
incoming text. -/
theorem saved_text_bounded (st : BotState) (chat_id message_id user_id : Int)
    (message_text message_type saved_date session_id : String) :
    ∃ r : SavedMessage,
      (save_message st chat_id message_id user_id message_text message_type
          saved_date session_id).saved_messages = st.saved_messages ++ [r] ∧
      r.message_text.length ≤ 500 := by
  refine ⟨_, rfl, ?_⟩
  show (String.mk (message_text.data.take 500)).length ≤ 500
  have : (String.mk (message_text.data.take 500)).length
      = (message_text.data.take 500).length := rfl
  rw [this, List.length_take]
  exact Nat.min_le_left _ _

/-- **C10.** No operation ever removes rows from `saved_messages`: the close
transition (and with it the whole tick), the configuration writes and chat
registration leave the retention store exactly as it was, and `save_message`
only appends — so the store grows monotonically across all operations and
every captured row of a purged session is still present after the purge. -/
theorem retention_store_monotone (st : BotState) (now : Tick) (del : Int → Bool)
    (c message_id user_id : Int) (text mtype date sid t wm : String) :
    (end_night_mode del c st).1.saved_messages = st.saved_messages ∧
    (background_tick now st).saved_messages = st.saved_messages ∧
    (∃ r, (save_message st c message_id user_id text mtype date sid).saved_messages
        = st.saved_messages ++ [r]) ∧
    (submit_start_time st c t).saved_messages = st.saved_messages ∧
    (submit_end_time st c t).saved_messages = st.saved_messages ∧
    (enable_night_mode st c).saved_messages = st.saved_messages ∧
    (disable_night_mode st c).saved_messages = st.saved_messages ∧
    (update_welcome_message st c wm).saved_messages = st.saved_messages ∧
    (add_chat st c date).saved_messages = st.saved_messages := by
  refine ⟨end_night_mode_saved del c st, foldl_processChat_saved now _ st,
    ⟨_, rfl⟩, ?_, ?_, rfl, rfl, rfl, rfl⟩
  · unfold submit_start_time
    split <;> rfl
  · unfold submit_end_time
    split <;> rfl

/-- State for the C2 counterexample: one enabled chat whose stored end time is
`12:00`. -/
def stC2 : BotState :=
  { chat_settings := [mkChat 1 true "23:00" "12:00" false],
    night_sessions := [], saved_messages := [], next_message_rowid := 1 }

/-- **C2, counterexample.** Submitting a start time equal to the stored end
time is accepted: after the write the store holds a chat whose start and end
times coincide — the degenerate window is stored, with no rejection path. -/
theorem degenerate_window_stored :
    (submit_start_time stC2 1 "12:00").chat_settings.any
        (fun cc => cc.start_time == cc.end_time) = true ∧
    is_valid_time "12:00" = true := by
  constructor <;> decide

/-- **C2, amended.** A configuration write of the start time is validated only
against the `HH:MM` wall-clock format (`is_valid_time`); any format-valid
string — including one equal to the stored end time — is written to the Chat
Configuration Store, and only a format-invalid string is rejected (leaving the
store unchanged).  No start-equals-end check exists. -/
theorem start_time_write_format_only (st : BotState) (c : Int) (t : String) :
    (is_valid_time t = true →
      (submit_start_time st c t).chat_settings = st.chat_settings.map (fun cc =>
        if cc.chat_id == c then { cc with start_time := t } else cc)) ∧
    (is_valid_time t = false → submit_start_time st c t = st) := by
  constructor
  · intro h
    unfold submit_start_time
    rw [if_pos h]
    rfl
  · intro h
    unfold submit_start_time
    rw [h]
    rfl

/-- Witness for `start_time_write_format_only` at concrete inputs: the
degenerate `12:00` write is stored, and the malformed `9:99` write is not. -/
theorem start_time_write_format_only_witness :
    (submit_start_time stC2 1 "12:00").chat_settings = stC2.chat_settings.map (fun cc =>
      if cc.chat_id == 1 then { cc with start_time := "12:00" } else cc) ∧
    submit_start_time stC2 1 "9:99" = stC2 :=
  ⟨(start_time_write_format_only stC2 1 "12:00").1 (by decide),
   (start_time_write_format_only stC2 1 "9:99").2 (by decide)⟩

/-- State for the C8 counterexample: an enabled chat whose start and end times
are both `23:00` (storable, see C2), currently active with one open session. -/
def stC8 : BotState :=
  { chat_settings := [mkChat 1 true "23:00" "23:00" true],
    night_sessions :=
      [{ session_id := mkSessionId 1 "20261011_2300", chat_id := 1,
         start_time := "2026-10-11T23:00", end_time := "23:00",
         message_count := 0, is_completed := false }],
    saved_messages := [], next_message_rowid := 1 }

/-- **C8, counterexample.** At a tick matching the chat's start time with the
active flag already true, the session ledger is NOT always left unchanged:
when the stored start time equals the stored end time, the tick falls through
to the close transition and marks the open session completed. -/
theorem open_noop_counterexample :
    ((mkTick "23:00").current_time == (mkChat 1 true "23:00" "23:00" true).start_time)
        = true ∧
    (mkChat 1 true "23:00" "23:00" true).is_night_mode_active = true ∧
    (background_tick (mkTick "23:00") stC8).night_sessions ≠ stC8.night_sessions := by
  refine ⟨by decide, by decide, by decide⟩

/-- **C8, amended.** Provided the chat's start time differs from its end time,
a tick matching the start time while the active flag is already set is a
complete no-op for that chat: neither the open nor the close branch fires, so
ledger, captured-message counts and retention store are all untouched.  (When
start equals end the same tick instead fires the close transition, as the
counterexample shows.) -/
theorem open_transition_noop (now : Tick) (st : BotState) (cc : ChatConfig)
    (htime : now.current_time = cc.start_time)
    (hactive : cc.is_night_mode_active = true)
    (hne : cc.start_time ≠ cc.end_time) :
    processChat now st cc = st := by
  unfold processChat
  have h1 : (now.current_time == cc.start_time && !cc.is_night_mode_active) = false := by
    simp [hactive]
  have h2 : (now.current_time == cc.end_time && cc.is_night_mode_active) = false := by
    have : (now.current_time == cc.end_time) = false := by
      rw [htime]
      exact beq_eq_false_iff_ne.mpr hne
    simp [this]
  simp [h1, h2]

/-- State for the `open_transition_noop` witness: like `stC8` but with the
usual midnight-crossing window. -/
def stC8w : BotState :=
  { chat_settings := [mkChat 1 true "23:00" "05:00" true],
    night_sessions :=
      [{ session_id := mkSessionId 1 "20261011_2300", chat_id := 1,
         start_time := "2026-10-11T23:00", end_time := "05:00",
         message_count := 0, is_completed := false }],
    saved_messages := [], next_message_rowid := 1 }

theorem open_transition_noop_witness :
    processChat (mkTick "23:00") stC8w (mkChat 1 true "23:00" "05:00" true) = stC8w :=
  open_transition_noop (mkTick "23:00") stC8w (mkChat 1 true "23:00" "05:00" true)
    rfl rfl (by decide)

/-- State for the C5 counterexample: two enabled chats sharing start time
`23:00`, neither active. -/
def stC5 : BotState :=
  { chat_settings := [mkChat 1 true "23:00" "05:00" false,
                      mkChat 2 true "23:00" "06:00" false],
    night_sessions := [], saved_messages := [], next_message_rowid := 1 }

/-- A 23:00 tick whose ledger `INSERT` raises a store exception for chat 1
only. -/
def nowC5 : TickE :=
  { toTick := mkTick "23:00", insert_session_fails := fun c => c == 1 }

/-- **C5, counterexample.** A store exception while processing chat 1 aborts
the processing of chat 2 in the same tick: with the failure, chat 2 gets no
session even though its open condition held (without the failure it does). -/
theorem tick_abort_counterexample :
    background_tickE nowC5 stC5 = stC5 ∧
    openSessionsFor (background_tickE nowC5 stC5) 2 = [] ∧
    openSessionsFor (background_tick (mkTick "23:00") stC5) 2 ≠ [] := by
  refine ⟨by decide, by decide, by decide⟩

theorem processChatE_ok (now : TickE) (st : BotState) (cc : ChatConfig)
    (h : now.insert_session_fails cc.chat_id = false) :
    processChatE now st cc = Except.ok (processChat now.toTick st cc) := by
  unfold processChatE processChat
  split
  · simp [h]
  · split <;> rfl

theorem runChatsE_eq_foldl (now : TickE) :
    ∀ (l : List ChatConfig) (st : BotState),
      (∀ cc ∈ l, now.insert_session_fails cc.chat_id = false) →
      runChatsE now l st = l.foldl (processChat now.toTick) st := by
  intro l
  induction l with
  | nil => intro st _; rfl
  | cons cc rest ih =>
    intro st h
    show (match processChatE now st cc with
      | Except.ok st' => runChatsE now rest st'
      | Except.error stErr => stErr) = _
    rw [processChatE_ok now st cc (h cc (List.mem_cons_self cc rest))]
    exact ih (processChat now.toTick st cc) (fun d hd => h d (List.mem_cons_of_mem cc hd))

/-- **C5, amended.** The remote calls of a tick never abort it: `send_message`,
`delete_message` and `end_night_mode` trap their own exceptions, so for any
remote outcomes every enabled chat of the tick is processed.  But a store
exception raised by the open transition's ledger `INSERT` for one chat escapes
to the loop's outer handler and skips the remaining chats of that same tick
(processing resumes only at the next tick) — so the tick processes all chats
exactly when no such store exception occurs. -/
theorem tick_completes_without_store_failure (now : TickE) (st : BotState)
    (h : ∀ cc ∈ enabledChats st, now.insert_session_fails cc.chat_id = false) :
    background_tickE now st = background_tick now.toTick st :=
  runChatsE_eq_foldl now (enabledChats st) st h

/-- A 23:00 tick with no store failures. -/
def nowC5ok : TickE :=
  { toTick := mkTick "23:00", insert_session_fails := fun _ => false }

theorem tick_completes_without_store_failure_witness :
    background_tickE nowC5ok stC5 = background_tick nowC5ok.toTick stC5 :=
  tick_completes_without_store_failure nowC5ok stC5 (by intro cc _; rfl)

/-! ### Ledger query lemmas -/

theorem latestOpen_mem : ∀ {l : List Session} {s : Session}, latestOpen l = some s → s ∈ l := by
  intro l
  induction l with
  | nil => intro s h; exact absurd h (by simp [latestOpen])
  | cons a rest ih =>
    intro s h
    rw [latestOpen] at h
    split at h
    · have : a = s := by injection h
      exact this ▸ List.mem_cons_self a rest
    · rename_i t heq
      split at h
      · have : t = s := by injection h
        exact List.mem_cons_of_mem a (this ▸ ih heq)
      · have : a = s := by injection h
        exact this ▸ List.mem_cons_self a rest

theorem latestOpen_eq_none : ∀ {l : List Session}, latestOpen l = none → l = [] := by
  intro l
  cases l with
  | nil => intro _; rfl
  | cons a rest =>
    intro h
    rw [latestOpen] at h
    exfalso
    split at h
    · exact Option.noConfusion h
    · split at h <;> exact Option.noConfusion h

theorem eq_singleton_of_mem_of_length_le_one {α} {l : List α} {a : α}
    (hm : a ∈ l) (hl : l.length ≤ 1) : l = [a] := by
  cases l with
  | nil => cases hm
  | cons x rest =>
    cases rest with
    | nil =>
      have : a = x := by simpa using hm
      rw [this]
    | cons y rest' => simp at hl

/-- After `end_night_mode`, provided the ledger held at most one non-completed
session for the chat (the ledger invariant), it holds none. -/
theorem openSessionsFor_after_end (del : Int → Bool) (c : Int) (st : BotState)
    (h1 : (openSessionsFor st c).length ≤ 1) :
    openSessionsFor (end_night_mode del c st).1 c = [] := by
  unfold end_night_mode
  cases hl : latestOpen (openSessionsFor st c) with
  | none =>
    have := latestOpen_eq_none hl
    simpa [hl] using this
  | some sess =>
    have hmem : sess ∈ openSessionsFor st c := latestOpen_mem hl
    have hsingle : openSessionsFor st c = [sess] := eq_singleton_of_mem_of_length_le_one hmem h1
    simp only [hl]
    unfold openSessionsFor
    dsimp only
    rw [List.filter_eq_nil_iff]
    intro s hs
    rcases List.mem_map.mp hs with ⟨s0, hs0, hfs0⟩
    unfold closeSessionRow at hfs0
    by_cases hid : s0.session_id == sess.session_id
    · rw [if_pos hid] at hfs0
      rw [← hfs0]
      simp
    · rw [if_neg hid] at hfs0
      subst hfs0
      intro hps
      have : s0 ∈ openSessionsFor st c := by
        unfold openSessionsFor
        exact List.mem_filter.mpr ⟨hs0, hps⟩
      rw [hsingle] at this
      have : s0 = sess := by simpa using this
      rw [this] at hid
      simp at hid

/-- **C3.** Closing twice purges once: if the ledger held at most one
non-completed session for the chat, then a second invocation of
`end_night_mode` (a duplicate tick) finds no non-completed session, returns
the state unchanged — ledger, retention store and configuration untouched —
and reports zero attempted deletions. -/
theorem close_transition_idempotent (del del2 : Int → Bool) (c : Int) (st : BotState)
    (h : (openSessionsFor st c).length ≤ 1) :
    end_night_mode del2 c (end_night_mode del c st).1
      = ((end_night_mode del c st).1, ⟨0, 0, 0⟩) := by
  have h0 := openSessionsFor_after_end del c st h
  generalize hst1 : (end_night_mode del c st).1 = st1 at h0 ⊢
  unfold end_night_mode
  rw [h0]
  rfl

/-- State for the C3 witness: one chat, one open session, two captured
messages. -/
def stC3 : BotState :=
  { chat_settings := [mkChat 1 true "23:00" "05:00" true],
    night_sessions :=
      [{ session_id := mkSessionId 1 "20261011_2300", chat_id := 1,
         start_time := "2026-10-11T23:00", end_time := "05:00",
         message_count := 0, is_completed := false }],
    saved_messages :=
      [{ id := 1, chat_id := 1, message_id := 100, user_id := 7, message_text := "a",
         message_type := "text", saved_date := "d",
         night_mode_session := mkSessionId 1 "20261011_2300" },
       { id := 2, chat_id := 1, message_id := 101, user_id := 7, message_text := "b",
         message_type := "text", saved_date := "d",
         night_mode_session := mkSessionId 1 "20261011_2300" }],
    next_message_rowid := 3 }

theorem close_transition_idempotent_witness :
    end_night_mode (fun _ => true) 1 (end_night_mode (fun _ => true) 1 stC3).1
      = ((end_night_mode (fun _ => true) 1 stC3).1, ⟨0, 0, 0⟩) :=
  close_transition_idempotent (fun _ => true) (fun _ => true) 1 stC3 (by decide)

theorem length_filter_add_length_filter_not {α} (p : α → Bool) (l : List α) :
    (l.filter p).length + (l.filter (fun a => !(p a))).length = l.length := by
  induction l with
  | nil => rfl
  | cons a l ih =>
    cases hp : p a <;> simp [List.filter_cons, hp] <;> omega

/-- **C4.** Purging a session with 5 captured messages of which the remote
delete fails for exactly one yields `Report{attempted 5, deleted 4, failed 1}`,
and the session row is nevertheless marked completed (`is_completed = 1`,
with the 4 successful deletions as its message count). -/
theorem purge_failed_delete_report (del : Int → Bool) (c : Int) (st : BotState) (sess : Session)
    (hopen : openSessionsFor st c = [sess])
    (hlen : (sessionMessages st c sess.session_id).length = 5)
    (hfail : ((sessionMessages st c sess.session_id).filter
        (fun m => !(del m.message_id))).length = 1) :
    (end_night_mode del c st).2 = ⟨5, 4, 1⟩ ∧
    ∃ s ∈ (end_night_mode del c st).1.night_sessions,
      s.session_id = sess.session_id ∧ s.is_completed = true ∧ s.message_count = 4 := by
  have hLatest : latestOpen (openSessionsFor st c) = some sess := by
    rw [hopen]; rfl
  have hdel : ((sessionMessages st c sess.session_id).filter
      (fun m => del m.message_id)).length = 4 := by
    have := length_filter_add_length_filter_not (fun m => del m.message_id)
      (sessionMessages st c sess.session_id)
    omega
  have hsessmem : sess ∈ st.night_sessions := by
    have : sess ∈ openSessionsFor st c := by rw [hopen]; exact List.mem_cons_self _ _
    exact (List.mem_filter.mp this).1
  unfold end_night_mode
  rw [hLatest]
  constructor
  · dsimp only
    rw [hlen, hdel]
  · refine ⟨{ sess with
        is_completed := true
        message_count := ((sessionMessages st c sess.session_id).filter
          (fun m => del m.message_id)).length }, ?_, rfl, rfl, hdel⟩
    show _ ∈ List.map _ st.night_sessions
    refine List.mem_map.mpr ⟨sess, hsessmem, ?_⟩
    simp [closeSessionRow]

/-- Session fixture for the C4 witness. -/
def sessC4 : Session :=
  { session_id := mkSessionId 1 "20261011_2300", chat_id := 1,
    start_time := "2026-10-11T23:00", end_time := "05:00",
    message_count := 0, is_completed := false }

/-- One captured row of the C4 fixture, remote message ids 101–105. -/
def msgC4 (i : Nat) (mid : Int) : SavedMessage :=
  { id := i, chat_id := 1, message_id := mid, user_id := 7, message_text := "m",
    message_type := "text", saved_date := "d",
    night_mode_session := mkSessionId 1 "20261011_2300" }

/-- State for the C4 witness: one open session with 5 captured messages. -/
def stC4 : BotState :=
  { chat_settings := [mkChat 1 true "23:00" "05:00" true],
    night_sessions := [sessC4],
    saved_messages := [msgC4 1 101, msgC4 2 102, msgC4 3 103, msgC4 4 104, msgC4 5 105],
    next_message_rowid := 6 }

/-- Remote oracle for the C4 witness: the delete of message #3 fails. -/
def delC4 : Int → Bool := fun mid => !(mid == 103)

theorem purge_failed_delete_report_witness :
    (end_night_mode delC4 1 stC4).2 = ⟨5, 4, 1⟩ ∧
    ∃ s ∈ (end_night_mode delC4 1 stC4).1.night_sessions,
      s.session_id = sessC4.session_id ∧ s.is_completed = true ∧ s.message_count = 4 :=
  purge_failed_delete_report delC4 1 stC4 sessC4 (by decide) (by decide) (by decide)

/-- **C7.** A message captured while session `S` is open is appended exactly
once (its rowid is fresh), and at purge time: the purge report's `attempted`
equals the size of the session's captured-message list, a still-present
captured row of `S` occurs exactly once in that list, and occurs zero times in
the message list of any other (chat, session) pair — so it contributes one
unit to `S`'s `attempted` and nothing to any other session's report. -/
theorem capture_purge_accounting
    (st : BotState) (c message_id user_id : Int) (text mtype date S : String)
    (hids : ∀ m ∈ st.saved_messages, m.id < st.next_message_rowid)
    (hopen : get_current_session st c = some S) :
    List.count (newSavedRow st c message_id user_id text mtype date S)
        (save_message st c message_id user_id text mtype date S).saved_messages = 1 ∧
    ∀ (del : Int → Bool) (sess : Session) (st2 : BotState),
      List.count (newSavedRow st c message_id user_id text mtype date S)
          st2.saved_messages = 1 →
      openSessionsFor st2 c = [sess] → sess.session_id = S →
      ((end_night_mode del c st2).2.attempted = (sessionMessages st2 c S).length ∧
       List.count (newSavedRow st c message_id user_id text mtype date S)
           (sessionMessages st2 c S) = 1 ∧
       ∀ (c' : Int) (S' : String), ¬(c' = c ∧ S' = S) →
         List.count (newSavedRow st c message_id user_id text mtype date S)
             (sessionMessages st2 c' S') = 0) := by
  set r := newSavedRow st c message_id user_id text mtype date S with hr
  constructor
  · show List.count r (st.saved_messages ++ [r]) = 1
    rw [List.count_append]
    have h0 : List.count r st.saved_messages = 0 := by
      apply List.count_eq_zero_of_not_mem
      intro hmem
      have := hids r hmem
      have hid : r.id = st.next_message_rowid := rfl
      omega
    rw [h0]
    simp
  · intro del sess st2 hpresent hopen2 hsid
    have hLatest : latestOpen (openSessionsFor st2 c) = some sess := by
      rw [hopen2]; rfl
    have hpr : (fun m : SavedMessage => m.chat_id == c && m.night_mode_session == S) r
        = true := by
      show (r.chat_id == c && r.night_mode_session == S) = true
      have h1 : r.chat_id = c := rfl
      have h2 : r.night_mode_session = S := rfl
      rw [h1, h2]
      simp
    refine ⟨?_, ?_, ?_⟩
    · unfold end_night_mode
      rw [hLatest]
      dsimp only
      rw [hsid]
    · unfold sessionMessages
      exact Eq.trans (List.count_filter hpr) hpresent
    · intro c' S' hne
      apply List.count_eq_zero_of_not_mem
      intro hmem
      have hp' := (List.mem_filter.mp hmem).2
      have h1 : r.chat_id = c := rfl
      have h2 : r.night_mode_session = S := rfl
      rw [h1, h2] at hp'
      rcases Bool.and_eq_true_iff.mp hp' with ⟨hb1, hb2⟩
      exact hne ⟨(beq_iff_eq.mp hb1).symm, (beq_iff_eq.mp hb2).symm⟩

/-- State for the C7 witness: chat 1 with an open session and an empty
retention store. -/
def stC7 : BotState :=
  { chat_settings := [mkChat 1 true "23:00" "05:00" true],
    night_sessions :=
      [{ session_id := mkSessionId 1 "20261011_2300", chat_id := 1,
         start_time := "2026-10-11T23:00", end_time := "05:00",
         message_count := 0, is_completed := false }],
    saved_messages := [], next_message_rowid := 1 }

/-- The session id of `stC7`'s open session. -/
def sidC7 : String := mkSessionId 1 "20261011_2300"

/-- The open session row of `stC7`. -/
def sessC7 : Session :=
  { session_id := sidC7, chat_id := 1, start_time := "2026-10-11T23:00",
    end_time := "05:00", message_count := 0, is_completed := false }

/-- The state after capturing one message in `stC7`. -/
def stC7' : BotState := save_message stC7 1 200 7 "hello" "text" "d" sidC7

/-- The captured row of `stC7'`. -/
def rC7 : SavedMessage := newSavedRow stC7 1 200 7 "hello" "text" "d" sidC7

theorem capture_purge_accounting_witness :
    List.count rC7 stC7'.saved_messages = 1 ∧
    (end_night_mode (fun _ => true) 1 stC7').2.attempted
        = (sessionMessages stC7' 1 sidC7).length ∧
    List.count rC7 (sessionMessages stC7' 1 sidC7) = 1 ∧
    List.count rC7 (sessionMessages stC7' 2 "other") = 0 := by
  have h := capture_purge_accounting stC7 1 200 7 "hello" "text" "d" sidC7
    (by intro m hm; cases hm) (by decide)
  have h2 := h.2 (fun _ => true) sessC7 stC7' (by decide) (by decide) rfl
  exact ⟨h.1, h2.1, h2.2.1, h2.2.2 2 "other" (by intro hc; exact absurd hc.1 (by decide))⟩

/-! ### C6: midnight-crossing windows -/

/-- Single-chat state before the window opens: one configured chat, no ledger
rows, arbitrary retention-store contents. -/
def preSt (cc : ChatConfig) (sv : List SavedMessage) (nid : Nat) : BotState :=
  { chat_settings := [cc], night_sessions := [], saved_messages := sv,
    next_message_rowid := nid }

/-- The ledger row created by the open transition at tick `topen`. -/
def openedSess (cc : ChatConfig) (topen : Tick) : Session :=
  { session_id := mkSessionId cc.chat_id topen.stamp, chat_id := cc.chat_id,
    start_time := topen.iso, end_time := cc.end_time, message_count := 0,
    is_completed := false }

/-- The configuration row after the open transition: active flag set,
notification date stamped. -/
def activeRow (cc : ChatConfig) (d : String) : ChatConfig :=
  { cc with is_night_mode_active := true, last_notification_date := d }

/-- The configuration row after the close transition. -/
def inactiveRow (cc : ChatConfig) (d : String) : ChatConfig :=
  { cc with is_night_mode_active := false, last_notification_date := d }

/-- The ledger row after the close transition with `k` successful deletions. -/
def closedSess (cc : ChatConfig) (topen : Tick) (k : Nat) : Session :=
  { openedSess cc topen with is_completed := true, message_count := k }

/-- The state after the open transition fired at tick `topen`. -/
def openedSt (cc : ChatConfig) (sv : List SavedMessage) (nid : Nat) (topen : Tick) :
    BotState :=
  { chat_settings := [activeRow cc topen.current_date],
    night_sessions := [openedSess cc topen], saved_messages := sv,
    next_message_rowid := nid }

/-- The state after the close transition, `k` remote deletions having
succeeded. -/
def closedSt (cc : ChatConfig) (sv : List SavedMessage) (nid : Nat) (topen : Tick)
    (k : Nat) : BotState :=
  { chat_settings := [inactiveRow cc topen.current_date],
    night_sessions := [closedSess cc topen k],
    saved_messages := sv, next_message_rowid := nid }

theorem background_tick_single (now : Tick) (st : BotState) (cc : ChatConfig)
    (h : enabledChats st = [cc]) :
    background_tick now st = processChat now st cc := by
  unfold background_tick
  rw [h]
  rfl

/-- **C6.** For an enabled chat whose window crosses midnight (start > end in
time-of-day order), the controller — which compares only time-of-day equality,
never elapsed time — behaves over a simulated clock as the spec requires: a
tick before the boundary changes nothing; the tick whose time equals the start
time opens the session and sets the active flag; every subsequent tick whose
time differs from the end time (in particular all ticks across midnight)
changes nothing; and the first tick whose time equals the end time — on the
following day — closes and completes the session and clears the flag. -/
theorem midnight_window_lifecycle
    (cc : ChatConfig) (sv : List SavedMessage) (nid : Nat)
    (tpre topen tclose : Tick) (mids : List Tick)
    (hen : cc.night_mode_enabled = true) (hact : cc.is_active = true)
    (hflag : cc.is_night_mode_active = false)
    (hcross : cc.end_time.data < cc.start_time.data)
    (hpre : tpre.current_time ≠ cc.start_time)
    (hopen : topen.current_time = cc.start_time)
    (hmids : ∀ t ∈ mids, t.current_time ≠ cc.end_time)
    (hclose : tclose.current_time = cc.end_time) :
    background_tick tpre (preSt cc sv nid) = preSt cc sv nid ∧
    background_tick topen (preSt cc sv nid) = openedSt cc sv nid topen ∧
    mids.foldl (fun s t => background_tick t s) (openedSt cc sv nid topen)
      = openedSt cc sv nid topen ∧
    ∃ k, background_tick tclose (openedSt cc sv nid topen)
      = closedSt cc sv nid topen k := by
  have hpreChats : enabledChats (preSt cc sv nid) = [cc] := by
    unfold enabledChats preSt
    simp [hen, hact]
  have hopenChats : enabledChats (openedSt cc sv nid topen)
      = [activeRow cc topen.current_date] := by
    unfold enabledChats openedSt activeRow
    simp [hen, hact]
  refine ⟨?_, ?_, ?_, ?_⟩
  · rw [background_tick_single tpre _ cc hpreChats]
    unfold processChat
    have h1 : (tpre.current_time == cc.start_time && !cc.is_night_mode_active) = false := by
      simp [beq_eq_false_iff_ne.mpr hpre]
    have h2 : (tpre.current_time == cc.end_time && cc.is_night_mode_active) = false := by
      simp [hflag]
    simp [h1, h2]
  · rw [background_tick_single topen _ cc hpreChats]
    unfold processChat
    have h1 : (topen.current_time == cc.start_time && !cc.is_night_mode_active) = true := by
      simp [hopen, hflag]
    rw [if_pos h1]
    unfold openNightMode preSt openedSt openedSess activeRow setFlagRow newSessionRow
    simp
  · induction mids with
    | nil => rfl
    | cons t rest ih =>
      have hnoop : background_tick t (openedSt cc sv nid topen)
          = openedSt cc sv nid topen := by
        rw [background_tick_single t _ _ hopenChats]
        unfold processChat
        have h1 : (t.current_time == (activeRow cc topen.current_date).start_time
            && !(activeRow cc topen.current_date).is_night_mode_active) = false := by
          simp [activeRow]
        have h2 : (t.current_time == (activeRow cc topen.current_date).end_time
            && (activeRow cc topen.current_date).is_night_mode_active) = false := by
          have hne : (t.current_time == cc.end_time) = false :=
            beq_eq_false_iff_ne.mpr (hmids t (List.mem_cons_self t rest))
          simp [activeRow, hne]
        simp [h1, h2]
      show List.foldl _ (background_tick t (openedSt cc sv nid topen)) rest = _
      rw [hnoop]
      exact ih (fun u hu => hmids u (List.mem_cons_of_mem t hu))
  · refine ⟨((sessionMessages (openedSt cc sv nid topen) cc.chat_id
        (openedSess cc topen).session_id).filter
          (fun m => tclose.deleteOk m.message_id)).length, ?_⟩
    rw [background_tick_single tclose _ _ hopenChats]
    unfold processChat
    have h1 : (tclose.current_time == (activeRow cc topen.current_date).start_time
        && !(activeRow cc topen.current_date).is_night_mode_active) = false := by
      simp [activeRow]
    have h2 : (tclose.current_time == (activeRow cc topen.current_date).end_time
        && (activeRow cc topen.current_date).is_night_mode_active) = true := by
      simp [activeRow, hclose]
    rw [if_neg (by simp [h1]), if_pos h2]
    have hops : openSessionsFor (openedSt cc sv nid topen) cc.chat_id
        = [openedSess cc topen] := by
      unfold openSessionsFor openedSt openedSess
      simp
    have hLatest : latestOpen (openSessionsFor (openedSt cc sv nid topen) cc.chat_id)
        = some (openedSess cc topen) := by
      rw [hops]; rfl
    unfold end_night_mode
    have hcid : (activeRow cc topen.current_date).chat_id = cc.chat_id := rfl
    rw [hcid, hLatest]
    unfold closedSt openedSt openedSess closedSess activeRow inactiveRow
    unfold clearFlagRow closeSessionRow
    simp
    exact ⟨rfl, rfl, rfl, rfl⟩

/-- Render `h:m` as an `HH:MM` string. -/
def timeStr (h m : Nat) : String :=
  (if h < 10 then "0" ++ toString h else toString h) ++ ":" ++
    (if m < 10 then "0" ++ toString m else toString m)

/-- Every minute from 23:01 through 23:59 and 00:00 through 04:59: the
simulated clock between the open and close boundaries of a 23:00→05:00
window. -/
def midTimesC6 : List String :=
  ((List.range 59).map (fun i => timeStr 23 (i + 1))) ++
    ((List.range 300).map (fun i => timeStr (i / 60) (i % 60)))

def ccC6 : ChatConfig := mkChat 1 true "23:00" "05:00" false

def midsC6 : List Tick := midTimesC6.map mkTick

theorem midnight_window_lifecycle_witness :
    background_tick (mkTick "22:59") (preSt ccC6 [] 1) = preSt ccC6 [] 1 ∧
    background_tick (mkTick "23:00") (preSt ccC6 [] 1)
      = openedSt ccC6 [] 1 (mkTick "23:00") ∧
    midsC6.foldl (fun s t => background_tick t s) (openedSt ccC6 [] 1 (mkTick "23:00"))
      = openedSt ccC6 [] 1 (mkTick "23:00") ∧
    ∃ k, background_tick (mkTick "05:00") (openedSt ccC6 [] 1 (mkTick "23:00"))
      = closedSt ccC6 [] 1 (mkTick "23:00") k :=
  midnight_window_lifecycle ccC6 [] 1 (mkTick "22:59") (mkTick "23:00")
    (mkTick "05:00") midsC6 rfl rfl rfl
    (by decide) (by decide) rfl
    (by set_option maxRecDepth 8192 in decide) rfl

/-! ### C1: the active-flag / ledger invariant -/

/-- Number of non-completed ledger rows of a chat. -/
def openCountFor (st : BotState) (c : Int) : Nat := (openSessionsFor st c).length

/-- The claimed invariant: a chat's `is_night_mode_active` flag is set iff
exactly one of its ledger rows is non-completed. -/
def claimInvariant (st : BotState) : Prop :=
  ∀ cc ∈ st.chat_settings,
    (cc.is_night_mode_active = true ↔ openCountFor st cc.chat_id = 1)

/-- The inductive strengthening of `claimInvariant`: chat ids are unique
(`chat_id` is the table's primary key), session ids are unique (primary key),
every ledger row's id has the `f"{chat_id}_{stamp}"` shape with its own chat
id, every chat has at most one non-completed session, and the flag matches the
ledger. -/
def goodState (st : BotState) : Prop :=
  (st.chat_settings.map (fun cc => cc.chat_id)).Nodup ∧
  (st.night_sessions.map (fun s => s.session_id)).Nodup ∧
  (∀ s ∈ st.night_sessions, ∃ stamp, s.session_id = mkSessionId s.chat_id stamp) ∧
  (∀ c : Int, openCountFor st c ≤ 1) ∧
  claimInvariant st

/-- States reachable from a fresh install (no sessions, all flags clear) under
the amended C1 proviso: background ticks, forced cleanup (`/force_cleanup`
calls `end_night_mode` directly), message capture, the configuration writes,
and registration (`waiting_chat_id` `INSERT OR REPLACE`) restricted to chats
with no non-completed session.  The `hfresh` guard on `register` is the
amendment's proviso, not a property of the source: `ReachableFull` below drops
it and is the program's full reachable set, on which the invariant fails (see
`reregistration_breaks_invariant`). -/
inductive Reachable : BotState → Prop
  | init (st : BotState)
      (hchats : (st.chat_settings.map (fun cc => cc.chat_id)).Nodup)
      (hflags : ∀ cc ∈ st.chat_settings, cc.is_night_mode_active = false)
      (hses : st.night_sessions = []) : Reachable st
  | tick (now : Tick) {st : BotState} :
      Reachable st → Reachable (background_tick now st)
  | forced_cleanup (del : Int → Bool) (c : Int) {st : BotState} :
      Reachable st → Reachable (end_night_mode del c st).1
  | capture (c message_id user_id : Int) (text mtype date sid : String) {st : BotState} :
      Reachable st → Reachable (save_message st c message_id user_id text mtype date sid)
  | set_start (c : Int) (t : String) {st : BotState} :
      Reachable st → Reachable (submit_start_time st c t)
  | set_end (c : Int) (t : String) {st : BotState} :
      Reachable st → Reachable (submit_end_time st c t)
  | enable (c : Int) {st : BotState} :
      Reachable st → Reachable (enable_night_mode st c)
  | disable (c : Int) {st : BotState} :
      Reachable st → Reachable (disable_night_mode st c)
  | set_welcome (c : Int) (m : String) {st : BotState} :
      Reachable st → Reachable (update_welcome_message st c m)
  | register (c : Int) (date : String) {st : BotState}
      (hfresh : openCountFor st c = 0) :
      Reachable st → Reachable (add_chat st c date)

/-- The program's full reachable set: identical to `Reachable` except that
`register` is unconditional, exactly as the `waiting_chat_id` flow is — the
source re-registers any chat id via `INSERT OR REPLACE` with no guard, even
while a session is open for it. -/
inductive ReachableFull : BotState → Prop
  | init (st : BotState)
      (hchats : (st.chat_settings.map (fun cc => cc.chat_id)).Nodup)
      (hflags : ∀ cc ∈ st.chat_settings, cc.is_night_mode_active = false)
      (hses : st.night_sessions = []) : ReachableFull st
  | tick (now : Tick) {st : BotState} :
      ReachableFull st → ReachableFull (background_tick now st)
  | forced_cleanup (del : Int → Bool) (c : Int) {st : BotState} :
      ReachableFull st → ReachableFull (end_night_mode del c st).1
  | capture (c message_id user_id : Int) (text mtype date sid : String) {st : BotState} :
      ReachableFull st →
      ReachableFull (save_message st c message_id user_id text mtype date sid)
  | set_start (c : Int) (t : String) {st : BotState} :
      ReachableFull st → ReachableFull (submit_start_time st c t)
  | set_end (c : Int) (t : String) {st : BotState} :
      ReachableFull st → ReachableFull (submit_end_time st c t)
  | enable (c : Int) {st : BotState} :
      ReachableFull st → ReachableFull (enable_night_mode st c)
  | disable (c : Int) {st : BotState} :
      ReachableFull st → ReachableFull (disable_night_mode st c)
  | set_welcome (c : Int) (m : String) {st : BotState} :
      ReachableFull st → ReachableFull (update_welcome_message st c m)
  | register (c : Int) (date : String) {st : BotState} :
      ReachableFull st → ReachableFull (add_chat st c date)

theorem filter_map_eq_filter {α} (f : α → α) (p : α → Bool) :
    ∀ l : List α, (∀ a ∈ l, f a = a ∨ (p (f a) = false ∧ p a = false)) →
      (l.map f).filter p = l.filter p := by
  intro l
  induction l with
  | nil => intro _; rfl
  | cons a l ih =>
    intro h
    have ht := ih (fun b hb => h b (List.mem_cons_of_mem a hb))
    rcases h a (List.mem_cons_self a l) with hfa | ⟨h1, h2⟩
    · show List.filter p (f a :: l.map f) = List.filter p (a :: l)
      rw [hfa, List.filter_cons, List.filter_cons, ht]
    · show List.filter p (f a :: l.map f) = List.filter p (a :: l)
      rw [List.filter_cons, List.filter_cons, h1, h2, ht]
      simp

theorem filter_map_eq_nil {α} (f : α → α) (p : α → Bool) (l : List α)
    (h : ∀ a ∈ l, p (f a) = false) : (l.map f).filter p = [] := by
  rw [List.filter_eq_nil_iff]
  intro b hb
  rcases List.mem_map.mp hb with ⟨a, ha, rfl⟩
  simp [h a ha]

theorem eq_of_session_id_eq {ns : List Session}
    (hnd : (ns.map (fun s => s.session_id)).Nodup)
    {s t : Session} (hs : s ∈ ns) (ht : t ∈ ns)
    (h : s.session_id = t.session_id) : s = t :=
  List.inj_on_of_nodup_map hnd hs ht h

/-- Closing one session leaves the open-session list of every other chat
unchanged (session ids are unique, so only the closed chat's row is hit). -/
theorem closeSessionRow_other {ns : List Session} {sess : Session} {k : Nat} {x : Int}
    (hnd : (ns.map (fun s => s.session_id)).Nodup)
    (hsessmem : sess ∈ ns) (hx : x ≠ sess.chat_id) :
    (ns.map (closeSessionRow sess.session_id k)).filter
        (fun s => s.chat_id == x && !s.is_completed)
      = ns.filter (fun s => s.chat_id == x && !s.is_completed) := by
  apply filter_map_eq_filter
  intro a ha
  unfold closeSessionRow
  by_cases hid : (a.session_id == sess.session_id) = true
  · right
    have haeq : a = sess := eq_of_session_id_eq hnd ha hsessmem (beq_iff_eq.mp hid)
    constructor
    · rw [if_pos hid]
      simp
    · have hax : (a.chat_id == x) = false := by
        rw [haeq]
        exact beq_eq_false_iff_ne.mpr (fun hh => hx hh.symm)
      simp [hax]
  · left
    rw [if_neg hid]

/-- Closing the unique open session of chat `c` leaves `c` with no open
session. -/
theorem closeSessionRow_self {st : BotState} {sess : Session} {k : Nat} {c : Int}
    (hsingle : openSessionsFor st c = [sess]) :
    (st.night_sessions.map (closeSessionRow sess.session_id k)).filter
        (fun s => s.chat_id == c && !s.is_completed) = [] := by
  apply filter_map_eq_nil
  intro a ha
  unfold closeSessionRow
  by_cases hid : (a.session_id == sess.session_id) = true
  · rw [if_pos hid]
    simp
  · rw [if_neg hid]
    cases hval : (a.chat_id == c && !a.is_completed) with
    | false => rfl
    | true =>
      exfalso
      have hmem : a ∈ openSessionsFor st c := List.mem_filter.mpr ⟨ha, hval⟩
      rw [hsingle] at hmem
      have : a = sess := by simpa using hmem
      rw [this] at hid
      simp at hid

/-- A state operation that rewrites `chat_settings` pointwise, preserving each
row's chat id and active flag and leaving the ledger alone, preserves
`goodState`. -/
theorem goodState_settings_map {st : BotState} (f : ChatConfig → ChatConfig)
    (hid : ∀ cc, (f cc).chat_id = cc.chat_id)
    (hfl : ∀ cc, (f cc).is_night_mode_active = cc.is_night_mode_active)
    (hg : goodState st) :
    goodState { st with chat_settings := st.chat_settings.map f } := by
  obtain ⟨hcn, hsn, hshape, hcount, hflag⟩ := hg
  refine ⟨?_, hsn, hshape, hcount, ?_⟩
  · have : (st.chat_settings.map f).map (fun cc => cc.chat_id)
        = st.chat_settings.map (fun cc => cc.chat_id) := by
      rw [List.map_map]
      exact List.map_congr_left (fun a _ => hid a)
    rw [this]
    exact hcn
  · intro cc' hcc'
    rcases List.mem_map.mp hcc' with ⟨cc, hcc, rfl⟩
    rw [hfl cc, hid cc]
    exact hflag cc hcc

/-- The close transition (used both by the scheduled tick and by forced
cleanup, for any chat id) preserves the strengthened invariant. -/
theorem end_night_mode_good (del : Int → Bool) (c : Int) {st : BotState}
    (hg : goodState st) : goodState (end_night_mode del c st).1 := by
  obtain ⟨hcn, hsn, hshape, hcount, hflag⟩ := hg
  unfold end_night_mode
  cases hl : latestOpen (openSessionsFor st c) with
  | none => exact ⟨hcn, hsn, hshape, hcount, hflag⟩
  | some sess =>
    have hmem : sess ∈ openSessionsFor st c := latestOpen_mem hl
    have hsingle : openSessionsFor st c = [sess] :=
      eq_singleton_of_mem_of_length_le_one hmem (hcount c)
    have hsessmem : sess ∈ st.night_sessions := (List.mem_filter.mp hmem).1
    have hchat : sess.chat_id = c := by
      have hpred := (List.mem_filter.mp hmem).2
      rcases Bool.and_eq_true_iff.mp hpred with ⟨hb, _⟩
      exact beq_iff_eq.mp hb
    dsimp only
    refine ⟨?_, ?_, ?_, ?_, ?_⟩
    · show ((st.chat_settings.map (clearFlagRow c)).map (fun cc => cc.chat_id)).Nodup
      have heq : (st.chat_settings.map (clearFlagRow c)).map (fun cc => cc.chat_id)
          = st.chat_settings.map (fun cc => cc.chat_id) := by
        rw [List.map_map]
        refine List.map_congr_left (fun a _ => ?_)
        show (clearFlagRow c a).chat_id = a.chat_id
        unfold clearFlagRow
        by_cases h : (a.chat_id == c) = true
        · rw [if_pos h]
        · rw [if_neg h]
      rw [heq]
      exact hcn
    · show ((st.night_sessions.map (closeSessionRow sess.session_id _)).map
          (fun s => s.session_id)).Nodup
      have heq : ∀ k : Nat, (st.night_sessions.map (closeSessionRow sess.session_id k)).map
          (fun s => s.session_id) = st.night_sessions.map (fun s => s.session_id) := by
        intro k
        rw [List.map_map]
        refine List.map_congr_left (fun a _ => ?_)
        show (closeSessionRow sess.session_id k a).session_id = a.session_id
        unfold closeSessionRow
        by_cases h : (a.session_id == sess.session_id) = true
        · rw [if_pos h]
        · rw [if_neg h]
      rw [heq]
      exact hsn
    · intro s' hs'
      rcases List.mem_map.mp hs' with ⟨s, hs, rfl⟩
      rcases hshape s hs with ⟨stamp, hst⟩
      refine ⟨stamp, ?_⟩
      unfold closeSessionRow
      by_cases h : (s.session_id == sess.session_id) = true
      · rw [if_pos h]
        exact hst
      · rw [if_neg h]
        exact hst
    · intro x
      by_cases hx : x = c
      · subst hx
        show (List.filter _ (List.map _ st.night_sessions)).length ≤ 1
        rw [closeSessionRow_self hsingle]
        simp
      · show (List.filter _ (List.map _ st.night_sessions)).length ≤ 1
        rw [closeSessionRow_other hsn hsessmem (fun hh => hx (hh.trans hchat))]
        exact hcount x
    · intro cc' hcc'
      rcases List.mem_map.mp hcc' with ⟨d, hd, rfl⟩
      unfold clearFlagRow
      by_cases h : (d.chat_id == c) = true
      · rw [if_pos h]
        have hdc : d.chat_id = c := beq_iff_eq.mp h
        constructor
        · intro hfl
          exact absurd hfl (by simp)
        · intro hcnt
          exfalso
          have h0 : openCountFor (end_night_mode del c st).1 c = 0 := by
            show (openSessionsFor _ c).length = 0
            unfold end_night_mode
            rw [hl]
            show (List.filter _ (List.map _ st.night_sessions)).length = 0
            rw [closeSessionRow_self hsingle]
            rfl
          have hcnt' : openCountFor (end_night_mode del c st).1 c = 1 := by
            unfold end_night_mode
            rw [hl]
            show (List.filter _ (List.map _ st.night_sessions)).length = 1
            have := hcnt
            rw [hdc] at this
            exact this
          omega
      · rw [if_neg h]
        have hdc : d.chat_id ≠ c := by
          intro hh
          rw [hh] at h
          simp at h
        show d.is_night_mode_active = true ↔
          (List.filter _ (List.map _ st.night_sessions)).length = 1
        rw [closeSessionRow_other hsn hsessmem (fun hh => hdc (hh.trans hchat))]
        exact hflag d hd

/-- After the open transition, the opening chat has exactly its fresh session
open (it had none before). -/
theorem openNightMode_sessions_self (now : Tick) {st : BotState} {cc : ChatConfig}
    (hcnt0 : openCountFor st cc.chat_id = 0) :
    openSessionsFor (openNightMode now st cc) cc.chat_id
      = [newSessionRow now cc] := by
  have hopen : openSessionsFor st cc.chat_id = [] := List.length_eq_zero.mp hcnt0
  unfold openNightMode openSessionsFor
  dsimp only
  rw [List.filter_append, List.filter_filter]
  have h1 : st.night_sessions.filter
      (fun s => (s.chat_id == cc.chat_id && !s.is_completed)
        && !(s.session_id == mkSessionId cc.chat_id now.stamp)) = [] := by
    rw [List.filter_eq_nil_iff]
    intro s hs hp
    rcases Bool.and_eq_true_iff.mp hp with ⟨hp1, _⟩
    have hmem : s ∈ openSessionsFor st cc.chat_id := List.mem_filter.mpr ⟨hs, hp1⟩
    rw [hopen] at hmem
    simp at hmem
  rw [h1]
  simp [newSessionRow]

/-- The open transition leaves every other chat's open-session list unchanged:
the replaced ledger row, if any, necessarily belongs to the opening chat
because session ids embed their chat id injectively. -/
theorem openNightMode_sessions_other (now : Tick) {st : BotState} {cc : ChatConfig}
    {x : Int}
    (hshape : ∀ s ∈ st.night_sessions, ∃ stamp, s.session_id = mkSessionId s.chat_id stamp)
    (hx : x ≠ cc.chat_id) :
    openSessionsFor (openNightMode now st cc) x = openSessionsFor st x := by
  unfold openNightMode openSessionsFor
  dsimp only
  rw [List.filter_append, List.filter_filter]
  have hnew : ((cc.chat_id == x) = false) := beq_eq_false_iff_ne.mpr (fun hh => hx hh.symm)
  have h2 : List.filter (fun s => s.chat_id == x && !s.is_completed)
      [newSessionRow now cc] = [] := by
    simp [newSessionRow, hnew]
  rw [h2, List.append_nil]
  refine List.filter_congr (fun s hs => ?_)
  show ((s.chat_id == x && !s.is_completed)
      && !(s.session_id == mkSessionId cc.chat_id now.stamp))
    = (s.chat_id == x && !s.is_completed)
  by_cases hp : (s.chat_id == x && !s.is_completed) = true
  · rcases hshape s hs with ⟨stamp, hsid⟩
    have hq : (s.session_id == mkSessionId cc.chat_id now.stamp) = false := by
      apply beq_eq_false_iff_ne.mpr
      intro heq
      rw [hsid] at heq
      rcases mkSessionId_injective heq with ⟨hchat, _⟩
      rcases Bool.and_eq_true_iff.mp hp with ⟨hp1, _⟩
      exact hx ((beq_iff_eq.mp hp1).symm.trans hchat)
    rw [hp, hq]
    rfl
  · cases hval : (s.chat_id == x && !s.is_completed) with
    | true => exact absurd hval hp
    | false => rfl

/-- The open transition, fired for a tracked chat whose flag is clear,
preserves the strengthened invariant. -/
theorem openNightMode_good (now : Tick) {st : BotState} {cc : ChatConfig}
    (hg : goodState st) (hmem : cc ∈ st.chat_settings)
    (hflag0 : cc.is_night_mode_active = false) :
    goodState (openNightMode now st cc) := by
  obtain ⟨hcn, hsn, hshape, hcount, hflag⟩ := hg
  have hcnt0 : openCountFor st cc.chat_id = 0 := by
    have hiff := hflag cc hmem
    have hne1 : ¬ openCountFor st cc.chat_id = 1 := by
      intro h1
      have := hiff.mpr h1
      rw [hflag0] at this
      exact Bool.noConfusion this
    have := hcount cc.chat_id
    omega
  have hSelf := openNightMode_sessions_self now hcnt0
  have hOther : ∀ x : Int, x ≠ cc.chat_id →
      openSessionsFor (openNightMode now st cc) x = openSessionsFor st x :=
    fun x hx => openNightMode_sessions_other now hshape hx
  refine ⟨?_, ?_, ?_, ?_, ?_⟩
  · show ((st.chat_settings.map (setFlagRow cc.chat_id now.current_date)).map
        (fun d => d.chat_id)).Nodup
    have heq : (st.chat_settings.map (setFlagRow cc.chat_id now.current_date)).map
        (fun d => d.chat_id) = st.chat_settings.map (fun d => d.chat_id) := by
      rw [List.map_map]
      refine List.map_congr_left (fun a _ => ?_)
      show (setFlagRow cc.chat_id now.current_date a).chat_id = a.chat_id
      unfold setFlagRow
      by_cases h : (a.chat_id == cc.chat_id) = true
      · rw [if_pos h]
      · rw [if_neg h]
    rw [heq]
    exact hcn
  · show ((st.night_sessions.filter
        (fun s : Session => !(s.session_id == mkSessionId cc.chat_id now.stamp))
        ++ [newSessionRow now cc]).map (fun s => s.session_id)).Nodup
    rw [List.map_append]
    rw [List.nodup_append]
    refine ⟨?_, ?_, ?_⟩
    · exact ((List.filter_sublist st.night_sessions).map
        (fun s => s.session_id)).nodup hsn
    · simp
    · intro a ha hb
      have hb' : a = mkSessionId cc.chat_id now.stamp := by
        simpa [newSessionRow] using hb
      rcases List.mem_map.mp ha with ⟨s, hs, rfl⟩
      have hq := (List.mem_filter.mp hs).2
      rw [hb'] at hq
      simp at hq
  · intro s' hs'
    rcases List.mem_append.mp hs' with h | h
    · exact hshape s' (List.mem_of_mem_filter h)
    · have hs'eq : s' = newSessionRow now cc := by simpa using h
      rw [hs'eq]
      exact ⟨now.stamp, rfl⟩
  · intro x
    by_cases hx : x = cc.chat_id
    · show (openSessionsFor (openNightMode now st cc) x).length ≤ 1
      rw [hx, hSelf]
      simp
    · show (openSessionsFor (openNightMode now st cc) x).length ≤ 1
      rw [hOther x hx]
      exact hcount x
  · intro cc' hcc'
    rcases List.mem_map.mp hcc' with ⟨d, hd, rfl⟩
    unfold setFlagRow
    by_cases h : (d.chat_id == cc.chat_id) = true
    · rw [if_pos h]
      have hdc : d.chat_id = cc.chat_id := beq_iff_eq.mp h
      constructor
      · intro _
        show openCountFor (openNightMode now st cc) d.chat_id = 1
        rw [hdc]
        show (openSessionsFor (openNightMode now st cc) cc.chat_id).length = 1
        rw [hSelf]
        rfl
      · intro _
        rfl
    · rw [if_neg h]
      have hdc : d.chat_id ≠ cc.chat_id := by
        intro hh
        rw [hh] at h
        simp at h
      show d.is_night_mode_active = true ↔
        openCountFor (openNightMode now st cc) d.chat_id = 1
      show d.is_night_mode_active = true ↔
        (openSessionsFor (openNightMode now st cc) d.chat_id).length = 1
      rw [hOther d.chat_id hdc]
      exact hflag d hd

/-- Processing one fetched chat row preserves the strengthened invariant. -/
theorem processChat_good (now : Tick) {st : BotState} {cc : ChatConfig}
    (hg : goodState st) (hmem : cc ∈ st.chat_settings) :
    goodState (processChat now st cc) := by
  unfold processChat
  split
  · rename_i hcond
    rcases Bool.and_eq_true_iff.mp hcond with ⟨_, hnot⟩
    have hflag0 : cc.is_night_mode_active = false := by
      cases hval : cc.is_night_mode_active with
      | false => rfl
      | true => rw [hval] at hnot; exact Bool.noConfusion hnot
    exact openNightMode_good now hg hmem hflag0
  · split
    · exact end_night_mode_good now.deleteOk cc.chat_id hg
    · exact hg

/-- Processing one chat row does not disturb rows of other chats in
`chat_settings`. -/
theorem processChat_mem (now : Tick) {st : BotState} {cc d : ChatConfig}
    (hd : d ∈ st.chat_settings) (hne : d.chat_id ≠ cc.chat_id) :
    d ∈ (processChat now st cc).chat_settings := by
  have hbeq : (d.chat_id == cc.chat_id) = false := beq_eq_false_iff_ne.mpr hne
  unfold processChat
  split
  · show d ∈ st.chat_settings.map (setFlagRow cc.chat_id now.current_date)
    refine List.mem_map.mpr ⟨d, hd, ?_⟩
    unfold setFlagRow
    rw [hbeq]
    rfl
  · split
    · show d ∈ (end_night_mode now.deleteOk cc.chat_id st).1.chat_settings
      unfold end_night_mode
      cases hl : latestOpen (openSessionsFor st cc.chat_id) with
      | none => exact hd
      | some sess =>
        show d ∈ st.chat_settings.map (clearFlagRow cc.chat_id)
        refine List.mem_map.mpr ⟨d, hd, ?_⟩
        unfold clearFlagRow
        rw [hbeq]
        rfl
    · exact hd

theorem foldl_processChat_good (now : Tick) :
    ∀ (l : List ChatConfig) (st : BotState), goodState st →
      (∀ cc ∈ l, cc ∈ st.chat_settings) →
      (l.map (fun cc => cc.chat_id)).Nodup →
      goodState (l.foldl (processChat now) st) := by
  intro l
  induction l with
  | nil => intro st hg _ _; exact hg
  | cons cc rest ih =>
    intro st hg hmem hnd
    show goodState (rest.foldl (processChat now) (processChat now st cc))
    have hn1 : cc.chat_id ∉ rest.map (fun d => d.chat_id) := (List.nodup_cons.mp hnd).1
    refine ih (processChat now st cc)
      (processChat_good now hg (hmem cc (List.mem_cons_self cc rest)))
      (fun d hd => ?_) (List.nodup_cons.mp hnd).2
    refine processChat_mem now (hmem d (List.mem_cons_of_mem cc hd)) (fun he => ?_)
    exact hn1 (he ▸ List.mem_map_of_mem (fun d => d.chat_id) hd)

/-- One full tick of the controller preserves the strengthened invariant. -/
theorem background_tick_good (now : Tick) {st : BotState} (hg : goodState st) :
    goodState (background_tick now st) := by
  refine foldl_processChat_good now (enabledChats st) st hg
    (fun cc hcc => List.mem_of_mem_filter hcc) ?_
  have hsub : List.Sublist ((enabledChats st).map (fun cc => cc.chat_id))
      (st.chat_settings.map (fun cc => cc.chat_id)) :=
    (List.filter_sublist st.chat_settings).map (fun cc => cc.chat_id)
  exact hsub.nodup hg.1

theorem save_message_good {st : BotState} (c message_id user_id : Int)
    (text mtype date sid : String) (hg : goodState st) :
    goodState (save_message st c message_id user_id text mtype date sid) :=
  hg

theorem submit_start_time_good {st : BotState} (c : Int) (t : String)
    (hg : goodState st) : goodState (submit_start_time st c t) := by
  unfold submit_start_time
  split
  · refine goodState_settings_map _ (fun cc => ?_) (fun cc => ?_) hg <;> split <;> rfl
  · exact hg

theorem submit_end_time_good {st : BotState} (c : Int) (t : String)
    (hg : goodState st) : goodState (submit_end_time st c t) := by
  unfold submit_end_time
  split
  · refine goodState_settings_map _ (fun cc => ?_) (fun cc => ?_) hg <;> split <;> rfl
  · exact hg

theorem enable_night_mode_good {st : BotState} (c : Int) (hg : goodState st) :
    goodState (enable_night_mode st c) := by
  refine goodState_settings_map _ (fun cc => ?_) (fun cc => ?_) hg <;> split <;> rfl

theorem disable_night_mode_good {st : BotState} (c : Int) (hg : goodState st) :
    goodState (disable_night_mode st c) := by
  refine goodState_settings_map _ (fun cc => ?_) (fun cc => ?_) hg <;> split <;> rfl

theorem update_welcome_message_good {st : BotState} (c : Int) (m : String)
    (hg : goodState st) : goodState (update_welcome_message st c m) := by
  refine goodState_settings_map _ (fun cc => ?_) (fun cc => ?_) hg <;> split <;> rfl

theorem add_chat_good {st : BotState} (c : Int) (date : String)
    (hfresh : openCountFor st c = 0) (hg : goodState st) :
    goodState (add_chat st c date) := by
  obtain ⟨hcn, hsn, hshape, hcount, hflag⟩ := hg
  refine ⟨?_, hsn, hshape, hcount, ?_⟩
  · show ((st.chat_settings.filter (fun cc => !(cc.chat_id == c))
        ++ [defaultChatRow c date]).map (fun cc => cc.chat_id)).Nodup
    rw [List.map_append, List.nodup_append]
    refine ⟨?_, ?_, ?_⟩
    · exact ((List.filter_sublist st.chat_settings).map (fun cc => cc.chat_id)).nodup hcn
    · simp
    · intro a ha hb
      have hb' : a = c := by simpa [defaultChatRow] using hb
      rcases List.mem_map.mp ha with ⟨d, hd, rfl⟩
      have hq := (List.mem_filter.mp hd).2
      rw [hb'] at hq
      simp at hq
  · intro cc' hcc'
    rcases List.mem_append.mp hcc' with h | h
    · exact hflag cc' (List.mem_of_mem_filter h)
    · have hcc'eq : cc' = defaultChatRow c date := by simpa using h
      rw [hcc'eq]
      constructor
      · intro hfl
        exact absurd hfl (by simp [defaultChatRow])
      · intro hcnt
        exfalso
        have : openCountFor st c = 1 := hcnt
        omega

/-- Every reachable state satisfies the strengthened invariant. -/
theorem reachable_good {st : BotState} (h : Reachable st) : goodState st := by
  induction h with
  | init st hchats hflags hses =>
    refine ⟨hchats, ?_, ?_, ?_, ?_⟩
    · rw [hses]; exact List.nodup_nil
    · intro s hs; rw [hses] at hs; cases hs
    · intro c
      show (openSessionsFor st c).length ≤ 1
      unfold openSessionsFor
      rw [hses]
      simp
    · intro cc hcc
      rw [hflags cc hcc]
      constructor
      · intro hfalse; exact Bool.noConfusion hfalse
      · intro hcnt
        exfalso
        have h0 : openCountFor st cc.chat_id = 0 := by
          show (openSessionsFor st cc.chat_id).length = 0
          unfold openSessionsFor
          rw [hses]
          rfl
        omega
  | tick now _ ih => exact background_tick_good now ih
  | forced_cleanup del c _ ih => exact end_night_mode_good del c ih
  | capture c message_id user_id text mtype date sid _ ih =>
    exact save_message_good c message_id user_id text mtype date sid ih
  | set_start c t _ ih => exact submit_start_time_good c t ih
  | set_end c t _ ih => exact submit_end_time_good c t ih
  | enable c _ ih => exact enable_night_mode_good c ih
  | disable c _ ih => exact disable_night_mode_good c ih
  | set_welcome c m _ ih => exact update_welcome_message_good c m ih
  | register c date hfresh _ ih => exact add_chat_good c date hfresh ih

/-- Initial fixture for C1: one enabled, inactive chat. -/
def stC1 : BotState :=
  { chat_settings := [mkChat 1 true "23:00" "05:00" false],
    night_sessions := [], saved_messages := [], next_message_rowid := 1 }

/-- **C1, counterexample.** The invariant does NOT hold in every
program-reachable state: open a session for chat 1 (tick at its start time),
then re-register chat 1 through the `waiting_chat_id` flow.  The
`INSERT OR REPLACE` replaces the settings row, resetting
`is_night_mode_active` to its column default 0, while the chat's
non-completed `night_sessions` row persists — the flag is false yet exactly
one session row has `is_completed = 0`, refuting the claimed biconditional at
a state reachable by the source's own unguarded operations. -/
theorem reregistration_breaks_invariant :
    ReachableFull (add_chat (background_tick (mkTick "23:00") stC1) 1 "2026-10-12") ∧
    ¬ claimInvariant (add_chat (background_tick (mkTick "23:00") stC1) 1 "2026-10-12") := by
  constructor
  · exact ReachableFull.register 1 "2026-10-12"
      (ReachableFull.tick (mkTick "23:00")
        (ReachableFull.init stC1 (by decide) (by decide) rfl))
  · unfold claimInvariant
    decide

/-- **C1, amended.** Each chat's `is_night_mode_active` flag is true iff
exactly one of its `night_sessions` rows has `is_completed = 0`, in every
state reachable while chat registration is only applied to chats with no
non-completed session (the `Reachable` relation); under that proviso every
operation of the controller — open transition, close transition, forced
cleanup — as well as capture and the configuration writes maps a reachable
state to a reachable state and therefore preserves the invariant.  The
proviso is forced by the counterexample: the source's unguarded
re-registration of a chat with an open session resets the flag while the
ledger row persists and breaks the invariant. -/
theorem active_flag_invariant {st : BotState} (h : Reachable st) :
    claimInvariant st :=
  (reachable_good h).2.2.2.2

theorem active_flag_invariant_witness :
    claimInvariant (background_tick (mkTick "23:00") stC1) :=
  active_flag_invariant
    (Reachable.tick (mkTick "23:00")
      (Reachable.init stC1 (by decide) (by decide) rfl))

end NightBot
